import Mathlib

/-!
Verification of the request-state and credential-verification layer of
libhttpserver (`src/httpserver/http_request.hpp`).

The embedding models C++ `std::string` keys/values as `String`, the body
buffer (`std::string content`) as `List Char`, `std::map` as an association
list inserted into with the map's key comparator, `size_t` as `Nat`
(`static_cast<size_t>(-1)` becomes `2 ^ 64 - 1`), raw pointers
(`MHD_Connection*`) as `Nat` addresses, and the `unescaper_ptr` function
pointer as `String → String`.
-/

namespace Httpserver

/-- Lower-cases one ASCII character; helper for the case-insensitive
header-key comparison (`strcasecmp` semantics). -/
def lowerChar (c : Char) : Char :=
  if 'A' ≤ c ∧ c ≤ 'Z' then Char.ofNat (c.toNat + 32) else c

/-- Modelled from the spec: the body of `http::header_comparator` is not under
`src/` (only the class is forward-declared in `http_request.hpp`); the spec
says header/footer/cookie keys are compared case-insensitively. -/
def headerKeyEq (a b : String) : Bool :=
  a.toList.map lowerChar == b.toList.map lowerChar

/-- Modelled from the spec: the body of `http::arg_comparator` is not under
`src/`; the spec says the argument-map comparator is case-sensitive. -/
def argKeyEq (a b : String) : Bool := a == b

/-- Lookup in an association-list model of `std::map`: the first entry whose
stored key compares equal (under the map's comparator) to the query key. -/
def mapGet (eqk : String → String → Bool) :
    List (String × String) → String → Option String
  | [], _ => none
  | (k', v') :: rest, k => if eqk k' k then some v' else mapGet eqk rest k

/-- `m[k] = v` on an association-list model of `std::map`: replace the value
of the first entry whose key compares equal to `k` (the stored key object is
kept, as `std::map` does), or append a fresh entry. -/
def mapSet (eqk : String → String → Bool) :
    List (String × String) → String → String → List (String × String)
  | [], k, v => [(k, v)]
  | (k', v') :: rest, k, v =>
    if eqk k' k then (k', v) :: rest else (k', v') :: mapSet eqk rest k v

/-- Model of `std::string::substr(0, n)`: the first `min(n, length)`
characters. -/
def substr0 (s : String) (n : Nat) : String := String.mk (s.toList.take n)

/-- The last value in an iteration-ordered entry list whose key compares
equal (under the destination map's comparator) to `k`; `none` when no entry
matches.  This is the value a sequence of `m[key] = value` writes leaves
visible at `k`. -/
def findLastVal (eqk : String → String → Bool) :
    List (String × String) → String → Option String
  | [], _ => none
  | (k', v') :: rest, k =>
    match findLastVal eqk rest k with
    | some v => some v
    | none => if eqk k' k then some v' else none

/-- The state of `httpserver::http_request`, fields in declaration order
(`http_request.hpp` lines 348-377). -/
structure http_request where
  user : String
  pass : String
  path : String
  digested_user : String
  method : String
  post_path : List String
  headers : List (String × String)
  footers : List (String × String)
  cookies : List (String × String)
  args : List (String × String)
  querystring : String
  content : List Char
  content_size_limit : Nat
  version : String
  requestor : String
  requestor_port : Nat
  underlying_connection : Nat
  headers_loaded : Bool
  footers_loaded : Bool
  cookies_loaded : Bool
  args_loaded : Bool
  basic_auth_loaded : Bool
  digest_auth_loaded : Bool
  requestor_loaded : Bool
  unescaper : String → String

namespace http_request

/-- Modelled from the spec: `http_request::EMPTY` is declared
`static const std::string` in the header but its initializer lives in the
missing `.cpp`; the spec calls it "a defined empty-string sentinel". -/
def EMPTY : String := ""

/-- `http_request::get_path_piece(int index)` (lines 96-101).  The source
guards only `(int)post_path.size() > index` before `post_path[index]`; a
negative `index` passes that guard and indexes the vector out of bounds,
which is undefined behaviour — modelled as `none`.  The in-guard, in-bounds
access returns the segment, and a failed guard returns `EMPTY`. -/
def get_path_piece (st : http_request) (index : Int) : Option String :=
  if (st.post_path.length : Int) > index then
    if 0 ≤ index then st.post_path.get? index.toNat else none
  else some EMPTY

/-- `http_request::content_too_large()` (lines 176-179):
`content.size() >= content_size_limit`. -/
def content_too_large (st : http_request) : Bool :=
  decide (st.content.length ≥ st.content_size_limit)

/-- `http_request::set_content` (lines 459-462):
`this->content = content.substr(0, content_size_limit)`. -/
def set_content (st : http_request) (c : List Char) : http_request :=
  { st with content := c.take st.content_size_limit }

/-- `http_request::set_content_size_limit` (lines 468-471). -/
def set_content_size_limit (st : http_request) (n : Nat) : http_request :=
  { st with content_size_limit := n }

/-- `http_request::grow_content` (lines 478-485): append the given bytes,
then `resize(content_size_limit)` if the buffer now exceeds the limit. -/
def grow_content (st : http_request) (data : List Char) : http_request :=
  let c := st.content ++ data
  if c.length > st.content_size_limit then
    { st with content := c.take st.content_size_limit }
  else
    { st with content := c }

/-- `http_request::set_header` (lines 400-403): `headers[key] = value`. -/
def set_header (st : http_request) (k v : String) : http_request :=
  { st with headers := mapSet headerKeyEq st.headers k v }

/-- `http_request::set_footer` (lines 412-415). -/
def set_footer (st : http_request) (k v : String) : http_request :=
  { st with footers := mapSet headerKeyEq st.footers k v }

/-- `http_request::set_cookie` (lines 424-427). -/
def set_cookie (st : http_request) (k v : String) : http_request :=
  { st with cookies := mapSet headerKeyEq st.cookies k v }

/-- `http_request::set_arg(const std::string&, const std::string&)`
(lines 436-439): `args[key] = value.substr(0, content_size_limit)`. -/
def set_arg (st : http_request) (k v : String) : http_request :=
  { st with args := mapSet argKeyEq st.args k (substr0 v st.content_size_limit) }

/-- `http_request::set_arg(const char*, const char*, size_t)`
(lines 447-451): `args[key] = std::string(value, min(size, limit))`, i.e. the
first `min(size, content_size_limit)` characters of the `size`-byte buffer
`value` (modelled as the string holding that buffer). -/
def set_arg_sized (st : http_request) (k v : String) (size : Nat) :
    http_request :=
  { st with
    args := mapSet argKeyEq st.args k (substr0 v (min size st.content_size_limit)) }

/-- `http_request::set_headers` (lines 547-552): iterate the given map and
`this->headers[it->first] = it->second` for each entry.  The list is the
`std::map` in its iteration order. -/
def set_headers (st : http_request) (m : List (String × String)) :
    http_request :=
  { st with headers := m.foldl (fun d p => mapSet headerKeyEq d p.1 p.2) st.headers }

/-- `http_request::set_footers` (lines 558-563). -/
def set_footers (st : http_request) (m : List (String × String)) :
    http_request :=
  { st with footers := m.foldl (fun d p => mapSet headerKeyEq d p.1 p.2) st.footers }

/-- `http_request::set_cookies` (lines 569-574). -/
def set_cookies (st : http_request) (m : List (String × String)) :
    http_request :=
  { st with cookies := m.foldl (fun d p => mapSet headerKeyEq d p.1 p.2) st.cookies }

/-- `http_request::set_args` (lines 580-585):
`this->args[it->first] = it->second.substr(0, content_size_limit)`. -/
def set_args (st : http_request) (m : List (String × String)) :
    http_request :=
  { st with
    args := m.foldl
      (fun d p => mapSet argKeyEq d p.1 (substr0 p.2 st.content_size_limit)) st.args }

/-- The copy constructor `http_request(const http_request&)` (lines 252-278).
Its initializer list copies every member except `requestor_port`, which is
left default-initialized to an indeterminate value — supplied here as the
extra argument `junk_port`. -/
def copy_construct (junk_port : Nat) (b : http_request) : http_request :=
  { user := b.user
    pass := b.pass
    path := b.path
    digested_user := b.digested_user
    method := b.method
    post_path := b.post_path
    headers := b.headers
    footers := b.footers
    cookies := b.cookies
    args := b.args
    querystring := b.querystring
    content := b.content
    content_size_limit := b.content_size_limit
    version := b.version
    requestor := b.requestor
    requestor_port := junk_port
    underlying_connection := b.underlying_connection
    headers_loaded := b.headers_loaded
    footers_loaded := b.footers_loaded
    cookies_loaded := b.cookies_loaded
    args_loaded := b.args_loaded
    basic_auth_loaded := b.basic_auth_loaded
    digest_auth_loaded := b.digest_auth_loaded
    requestor_loaded := b.requestor_loaded
    unescaper := b.unescaper }

/-- The move constructor `http_request(http_request&&)` (lines 280-298).
Its initializer list transfers only the sixteen value members up to
`underlying_connection`; `requestor_port`, the seven `*_loaded` flags and
`unescaper` are absent from it and stay indeterminate — supplied here as the
`junk_*` arguments.  Only the destination's resulting state is modelled. -/
def move_construct (junk_port : Nat)
    (junk_hl junk_fl junk_cl junk_al junk_bl junk_dl junk_rl : Bool)
    (junk_unescaper : String → String) (b : http_request) : http_request :=
  { user := b.user
    pass := b.pass
    path := b.path
    digested_user := b.digested_user
    method := b.method
    post_path := b.post_path
    headers := b.headers
    footers := b.footers
    cookies := b.cookies
    args := b.args
    querystring := b.querystring
    content := b.content
    content_size_limit := b.content_size_limit
    version := b.version
    requestor := b.requestor
    requestor_port := junk_port
    underlying_connection := b.underlying_connection
    headers_loaded := junk_hl
    footers_loaded := junk_fl
    cookies_loaded := junk_cl
    args_loaded := junk_al
    basic_auth_loaded := junk_bl
    digest_auth_loaded := junk_dl
    requestor_loaded := junk_rl
    unescaper := junk_unescaper }

/-- The copy assignment `operator=(const http_request&)` (lines 300-322).
It assigns the sixteen value members up to `underlying_connection` and
nothing else: the destination `a` keeps its own `requestor_port`, `*_loaded`
flags and `unescaper`. -/
def copy_assign (a b : http_request) : http_request :=
  { a with
    user := b.user
    pass := b.pass
    path := b.path
    digested_user := b.digested_user
    method := b.method
    post_path := b.post_path
    headers := b.headers
    footers := b.footers
    cookies := b.cookies
    args := b.args
    querystring := b.querystring
    content := b.content
    content_size_limit := b.content_size_limit
    version := b.version
    requestor := b.requestor
    underlying_connection := b.underlying_connection }

/-- The move assignment `operator=(http_request&&)` (lines 324-346): the same
sixteen members as the copy assignment are moved into the destination; only
the destination's resulting state is modelled. -/
def move_assign (a b : http_request) : http_request := copy_assign a b

end http_request

/-- One pass of splitting on `/` while discarding empty segments: `acc`
holds the characters of the current segment in reverse. -/
def tokenizeChars : List Char → List Char → List String
  | [], acc => if acc = [] then [] else [String.mk acc.reverse]
  | c :: cs, acc =>
    if c = '/' then
      if acc = [] then tokenizeChars cs []
      else String.mk acc.reverse :: tokenizeChars cs []
    else tokenizeChars cs (c :: acc)

/-- Modelled from the spec: `http::http_utils::tokenize_url` lives in the
missing `http_utils` unit; the spec defines it as splitting the raw path on
`/` and discarding empty segments. -/
def tokenize_url (s : String) : List String :=
  tokenizeChars s.toList []

namespace http_request

/-- `http_request::set_path` (lines 491-499): store the raw path, then
`push_back` every tokenized segment onto the existing `post_path` vector
(the vector is not cleared first). -/
def set_path (st : http_request) (p : String) : http_request :=
  { st with path := p, post_path := st.post_path ++ tokenize_url p }

end http_request

/-- The Transport collaborator (MHD): the key/value pairs its one-shot
enumeration of each kind would deliver to the visitor callback. -/
structure transport where
  t_headers : List (String × String)
  t_footers : List (String × String)
  t_cookies : List (String × String)
  t_args : List (String × String)

namespace http_request

/-- Modelled from the spec: the body of `http_request::check_or_fill_headers`
is in the missing `.cpp` (only declared at line 405).  If the headers are not
yet loaded, enumerate the Transport's header pairs once, inserting each via
`set_header`, and set `headers_loaded`; otherwise do nothing.  The returned
`Nat` counts the Transport enumerations this call performed. -/
def check_or_fill_headers (tr : transport) (st : http_request) :
    http_request × Nat :=
  if st.headers_loaded then (st, 0)
  else
    ({ tr.t_headers.foldl (fun s p => s.set_header p.1 p.2) st with
        headers_loaded := true }, 1)

/-- Modelled from the spec: `http_request::check_or_fill_footers`
(declared at line 417), as for headers. -/
def check_or_fill_footers (tr : transport) (st : http_request) :
    http_request × Nat :=
  if st.footers_loaded then (st, 0)
  else
    ({ tr.t_footers.foldl (fun s p => s.set_footer p.1 p.2) st with
        footers_loaded := true }, 1)

/-- Modelled from the spec: `http_request::check_or_fill_cookies`
(declared at line 429), as for headers. -/
def check_or_fill_cookies (tr : transport) (st : http_request) :
    http_request × Nat :=
  if st.cookies_loaded then (st, 0)
  else
    ({ tr.t_cookies.foldl (fun s p => s.set_cookie p.1 p.2) st with
        cookies_loaded := true }, 1)

/-- Modelled from the spec: `http_request::check_or_fill_args` (declared at
line 453); argument values are passed through the injected unescaping
function before storage. -/
def check_or_fill_args (tr : transport) (st : http_request) :
    http_request × Nat :=
  if st.args_loaded then (st, 0)
  else
    ({ tr.t_args.foldl (fun s p => s.set_arg p.1 (st.unescaper p.2)) st with
        args_loaded := true }, 1)

/-- Modelled from the spec: `http_request::get_headers` (declared at line
117) triggers at most one enumeration and returns the populated map. -/
def get_headers (tr : transport) (st : http_request) :
    (http_request × Nat) × List (String × String) :=
  let r := check_or_fill_headers tr st
  (r, r.1.headers)

/-- Modelled from the spec: `http_request::get_header` (declared at line
145) returns the mapped value or the empty-string sentinel if absent. -/
def get_header (tr : transport) (st : http_request) (key : String) :
    (http_request × Nat) × String :=
  let r := check_or_fill_headers tr st
  (r, (mapGet headerKeyEq r.1.headers key).getD EMPTY)

end http_request

/-- The Digest `Authorization` parameters of spec §4.5 step 1: `username`,
`realm`, `nonce`, `uri`, optional `qop`, `nc`, `cnonce`, `response`. -/
structure digest_params where
  username : String
  realm : String
  nonce : String
  uri : String
  qop : Option String
  nc : String
  cnonce : String
  response : String

/-- The RFC 2617 recomputed response of spec §4.5 step 4:
`HA1 = hash(username:realm:password)`, `HA2 = hash(method:uri)`, and
`hash(HA1:nonce:nc:cnonce:qop:HA2)` when `qop` is present, else
`hash(HA1:nonce:HA2)`. -/
def expected_digest (hash : String → String) (method uri realm password : String)
    (p : digest_params) : String :=
  let ha1 := hash (p.username ++ ":" ++ realm ++ ":" ++ password)
  let ha2 := hash (method ++ ":" ++ uri)
  match p.qop with
  | some q =>
    hash (ha1 ++ ":" ++ p.nonce ++ ":" ++ p.nc ++ ":" ++ p.cnonce ++ ":" ++ q
      ++ ":" ++ ha2)
  | none => hash (ha1 ++ ":" ++ p.nonce ++ ":" ++ ha2)

namespace http_request

/-- Modelled from the spec: the body of `http_request::check_digest_auth`
(declared at lines 207-210) is in the missing `.cpp`; spec §4.5 gives the
algorithm.  `hash` abstracts the digest hash, `issuedAt` extracts the
nonce's embedded issuance timestamp, `parsed` is the result of step 1's
parameter parse (`none` on structural failure), `now` is the current time,
and `method`/`uri` come from the already-populated request fields.  The
result is `(verdict, reload_nonce)`. -/
def check_digest_auth (hash : String → String) (issuedAt : String → Int)
    (method uri realm password : String) (nonce_timeout : Int) (now : Int)
    (parsed : Option digest_params) : Bool × Bool :=
  match parsed with
  | none => (false, false)
  | some p =>
    if p.realm ≠ realm then (false, false)
    else if now - issuedAt p.nonce > nonce_timeout then (false, true)
    else if expected_digest hash method uri realm password p = p.response then
      (true, false)
    else (false, false)

end http_request

/-- A concrete request state as left by the private default constructor
(lines 218-231): empty strings/maps, `content_size_limit` set to
`static_cast<size_t>(-1)`, null connection, all loaded flags `false`, with
the indeterminate `requestor_port` taken as `0` and an identity unescaper. -/
def req0 : http_request :=
  { user := "", pass := "", path := "", digested_user := "", method := ""
    post_path := [], headers := [], footers := [], cookies := [], args := []
    querystring := "", content := [], content_size_limit := 2 ^ 64 - 1
    version := "", requestor := "", requestor_port := 0
    underlying_connection := 0, headers_loaded := false
    footers_loaded := false, cookies_loaded := false, args_loaded := false
    basic_auth_loaded := false, digest_auth_loaded := false
    requestor_loaded := false, unescaper := fun s => s }

/-- A concrete Transport stub delivering one header, footer, cookie and
argument pair. -/
def tr0 : transport :=
  { t_headers := [("Host", "example.org")]
    t_footers := [("F", "fv")]
    t_cookies := [("C", "cv")]
    t_args := [("q", "1")] }

/-- Concrete Digest parameters whose `response` matches the recomputation
under the identity hash (`HA1 = "u:R:P"`, `HA2 = "GET:/secret"`,
no `qop`). -/
def pGood : digest_params :=
  { username := "u", realm := "R", nonce := "n0", uri := "/secret"
    qop := none, nc := "", cnonce := ""
    response := "u:R:P:n0:GET:/secret" }

/-- `pGood` with one character of the presented `response` mutated. -/
def pBad : digest_params :=
  { pGood with response := "u:R:P:n0:GET:/secreX" }

/-! Helper lemmas about the comparators, the association-list map model and
the tokenizer. -/

theorem headerKeyEq_refl (k : String) : headerKeyEq k k = true := by
  simp [headerKeyEq]

theorem headerKeyEq_symm (a b : String) : headerKeyEq a b = headerKeyEq b a := by
  unfold headerKeyEq
  rw [Bool.eq_iff_iff]
  constructor <;> intro h <;> rw [beq_iff_eq] at h ⊢ <;> exact h.symm

theorem headerKeyEq_trans (a b c : String) (h1 : headerKeyEq a b = true)
    (h2 : headerKeyEq b c = true) : headerKeyEq a c = true := by
  unfold headerKeyEq at h1 h2 ⊢
  rw [beq_iff_eq] at h1 h2 ⊢
  exact h1.trans h2

theorem argKeyEq_refl (k : String) : argKeyEq k k = true := by
  simp [argKeyEq]

theorem argKeyEq_symm (a b : String) : argKeyEq a b = argKeyEq b a := by
  unfold argKeyEq
  rw [Bool.eq_iff_iff]
  constructor <;> intro h <;> rw [beq_iff_eq] at h ⊢ <;> exact h.symm

theorem argKeyEq_trans (a b c : String) (h1 : argKeyEq a b = true)
    (h2 : argKeyEq b c = true) : argKeyEq a c = true := by
  unfold argKeyEq at h1 h2 ⊢
  rw [beq_iff_eq] at h1 h2 ⊢
  exact h1.trans h2

theorem mapGet_mapSet_self (eqk : String → String → Bool) (k v : String)
    (hkk : eqk k k = true) :
    ∀ m : List (String × String), mapGet eqk (mapSet eqk m k v) k = some v := by
  intro m
  induction m with
  | nil => simp [mapSet, mapGet, hkk]
  | cons p rest ih =>
    obtain ⟨k', v'⟩ := p
    by_cases h : eqk k' k = true
    · simp [mapSet, mapGet, h]
    · simp only [Bool.not_eq_true] at h
      simp [mapSet, mapGet, h, ih]

theorem mapGet_mapSet (eqk : String → String → Bool)
    (hsymm : ∀ a b, eqk a b = eqk b a)
    (htrans : ∀ a b c, eqk a b = true → eqk b c = true → eqk a c = true)
    (k' v' k : String) :
    ∀ m : List (String × String),
      mapGet eqk (mapSet eqk m k' v') k =
        if eqk k' k then some v' else mapGet eqk m k := by
  intro m
  induction m with
  | nil => simp [mapSet, mapGet]
  | cons p rest ih =>
    obtain ⟨a, b⟩ := p
    by_cases hak : eqk a k' = true
    · -- the entry (a, b) gets its value replaced
      by_cases hkk : eqk k' k = true
      · have hak2 : eqk a k = true := htrans a k' k hak hkk
        simp [mapSet, mapGet, hak, hkk, hak2]
      · have hak2 : eqk a k = false := by
          by_contra hcon
          simp only [Bool.not_eq_false] at hcon
          have : eqk k' k = true :=
            htrans k' a k (by rw [hsymm]; exact hak) hcon
          simp [this] at hkk
        simp [mapSet, mapGet, hak, hkk, hak2]
    · simp only [Bool.not_eq_true] at hak
      by_cases hbk : eqk a k = true
      · have hkk : eqk k' k = false := by
          by_contra hcon
          simp only [Bool.not_eq_false] at hcon
          have : eqk a k' = true :=
            htrans a k k' hbk (by rw [hsymm]; exact hcon)
          simp [this] at hak
        simp [mapSet, mapGet, hak, hbk, hkk]
      · simp only [Bool.not_eq_true] at hbk
        simp [mapSet, mapGet, hak, hbk, ih]

theorem mapGet_foldl_mapSet (eqk : String → String → Bool)
    (hsymm : ∀ a b, eqk a b = eqk b a)
    (htrans : ∀ a b c, eqk a b = true → eqk b c = true → eqk a c = true)
    (f : String → String) :
    ∀ (m : List (String × String)) (dst : List (String × String)) (k : String),
      mapGet eqk (m.foldl (fun d p => mapSet eqk d p.1 (f p.2)) dst) k =
        match findLastVal eqk m k with
        | some v => some (f v)
        | none => mapGet eqk dst k := by
  intro m
  induction m with
  | nil => intro dst k; rfl
  | cons p rest ih =>
    intro dst k
    obtain ⟨a, b⟩ := p
    simp only [List.foldl_cons, findLastVal]
    rw [ih]
    cases hfl : findLastVal eqk rest k with
    | some v => simp
    | none =>
      simp only []
      rw [mapGet_mapSet eqk hsymm htrans a (f b) k dst]
      by_cases hak : eqk a k = true
      · simp [hak]
      · simp only [Bool.not_eq_true] at hak
        simp [hak]

theorem findLastVal_eq_none (eqk : String → String → Bool)
    (m : List (String × String)) (k : String)
    (h : ∀ p ∈ m, eqk p.1 k = false) : findLastVal eqk m k = none := by
  induction m with
  | nil => rfl
  | cons p rest ih =>
    obtain ⟨a, b⟩ := p
    have ha : eqk a k = false := h (a, b) (by simp)
    have hrest : findLastVal eqk rest k = none :=
      ih (fun q hq => h q (by simp [hq]))
    simp [findLastVal, hrest, ha]

theorem tokenizeChars_mem_ne (l : List Char) :
    ∀ (acc : List Char) (t : String), t ∈ tokenizeChars l acc → t ≠ "" := by
  induction l with
  | nil =>
    intro acc t h
    by_cases ha : acc = []
    · simp [tokenizeChars, ha] at h
    · simp [tokenizeChars, ha] at h
      subst h
      intro heq
      have hrev : acc.reverse = ([] : List Char) := congrArg String.data heq
      rw [List.reverse_eq_nil_iff] at hrev
      exact ha hrev
  | cons c cs ih =>
    intro acc t h
    by_cases hc : c = '/'
    · by_cases ha : acc = []
      · simp [tokenizeChars, hc, ha] at h
        exact ih [] t h
      · simp [tokenizeChars, hc, ha] at h
        rcases h with h | h
        · subst h
          intro heq
          have hrev : acc.reverse = ([] : List Char) := congrArg String.data heq
          rw [List.reverse_eq_nil_iff] at hrev
          exact ha hrev
        · exact ih [] t h
    · simp [tokenizeChars, hc] at h
      exact ih (c :: acc) t h

/-! The claims. -/

/-- C1 (counterexample): the claim says copy assignment copies every field,
including every loaded flag; but `operator=(const http_request&)` omits the
seven `*_loaded` flags, so assigning from a request with
`headers_loaded = true` into one with `headers_loaded = false` leaves the
destination's flag `false`, different from the source's value. -/
theorem C1_copy_semantics_cex :
    (http_request.copy_assign req0 { req0 with headers_loaded := true }).headers_loaded
      ≠ ({ req0 with headers_loaded := true } : http_request).headers_loaded := by
  decide

/-- C1 (amended): the copy constructor duplicates every field except
`requestor_port` (left indeterminate), the connection pointer being copied as
the same raw reference; the move constructor transfers the sixteen value
fields and the connection pointer but leaves the seven loaded flags,
`requestor_port` and `unescaper` indeterminate; both assignment operators
copy/move the sixteen value fields and the connection pointer and leave the
destination's loaded flags, `requestor_port` and `unescaper` unchanged. -/
theorem C1_copy_move_amended (junk_port : Nat)
    (j1 j2 j3 j4 j5 j6 j7 : Bool) (ju : String → String)
    (a b : http_request) :
    http_request.copy_construct junk_port b
      = { b with requestor_port := junk_port } ∧
    http_request.move_construct junk_port j1 j2 j3 j4 j5 j6 j7 ju b =
      { b with
        requestor_port := junk_port
        headers_loaded := j1
        footers_loaded := j2
        cookies_loaded := j3
        args_loaded := j4
        basic_auth_loaded := j5
        digest_auth_loaded := j6
        requestor_loaded := j7
        unescaper := ju } ∧
    http_request.copy_assign a b =
      { b with
        requestor_port := a.requestor_port
        headers_loaded := a.headers_loaded
        footers_loaded := a.footers_loaded
        cookies_loaded := a.cookies_loaded
        args_loaded := a.args_loaded
        basic_auth_loaded := a.basic_auth_loaded
        digest_auth_loaded := a.digest_auth_loaded
        requestor_loaded := a.requestor_loaded
        unescaper := a.unescaper } ∧
    http_request.move_assign a b = http_request.copy_assign a b :=
  ⟨rfl, rfl, rfl, rfl⟩

/-- C3: after `set_content` the buffer is the input truncated to
`content_size_limit`, and after `grow_content` the buffer is the old content
with the new bytes appended and then clamped to `content_size_limit`; in both
cases `content.size() <= content_size_limit` holds afterwards, excess bytes
being silently dropped. -/
theorem C3_content_size_invariant (st : http_request) (s data : List Char) :
    (st.set_content s).content = s.take st.content_size_limit ∧
    (st.set_content s).content.length ≤ st.content_size_limit ∧
    (st.grow_content data).content
      = (st.content ++ data).take st.content_size_limit ∧
    (st.grow_content data).content.length ≤ st.content_size_limit := by
  have hgrow : (st.grow_content data).content
      = (st.content ++ data).take st.content_size_limit := by
    unfold http_request.grow_content
    dsimp only
    split
    · rfl
    · next h => exact (List.take_of_length_le (Nat.le_of_not_lt h)).symm
  refine ⟨rfl, by simp [http_request.set_content], hgrow, ?_⟩
  rw [hgrow]
  simp

/-- C5 (counterexample): the claim says every index for which `post_path`
has no element — including negative indices — yields the `EMPTY` sentinel;
but for a negative index the guard `(int)post_path.size() > index` passes
and `post_path[index]` is an out-of-bounds vector access (undefined
behaviour, modelled as `none`), not `EMPTY`. -/
theorem C5_get_path_piece_cex :
    http_request.get_path_piece { req0 with post_path := ["a"] } (-1)
      ≠ some http_request.EMPTY := by
  decide

/-- C5 (amended): for every index at or beyond `post_path.size()`,
`get_path_piece` returns the `EMPTY` sentinel; for an in-range index it
returns that segment; a negative index escapes the guard and performs an
out-of-bounds vector access (undefined behaviour). -/
theorem C5_get_path_piece_amended (st : http_request) (index : Int) :
    ((st.post_path.length : Int) ≤ index →
      st.get_path_piece index = some http_request.EMPTY) ∧
    (0 ≤ index → index < (st.post_path.length : Int) →
      st.get_path_piece index = st.post_path.get? index.toNat) ∧
    (index < 0 → st.get_path_piece index = none) := by
  unfold http_request.get_path_piece
  refine ⟨?_, ?_, ?_⟩
  · intro h
    rw [if_neg (by omega)]
  · intro h0 hlt
    rw [if_pos (by omega), if_pos h0]
  · intro hneg
    rw [if_pos (by omega), if_neg (by omega)]

/-- C5 witness: index `3` is at or beyond the size of the one-segment
`post_path`, and `get_path_piece` returns the `EMPTY` sentinel there. -/
theorem C5_get_path_piece_amended_witness :
    ((({ req0 with post_path := ["a"] } : http_request).post_path.length : Int) ≤ 3) ∧
    http_request.get_path_piece { req0 with post_path := ["a"] } 3
      = some http_request.EMPTY :=
  ⟨by decide,
    (C5_get_path_piece_amended { req0 with post_path := ["a"] } 3).1 (by decide)⟩

/-- C6: the path tokenizer splits on `/` and discards empty segments:
`"/a/b//c/"` tokenizes to `["a", "b", "c"]`, the empty string to `[]`, and
no produced segment is the empty string. -/
theorem C6_tokenize_url (s t : String) :
    tokenize_url "/a/b//c/" = ["a", "b", "c"] ∧
    tokenize_url "" = [] ∧
    (t ∈ tokenize_url s → t ≠ "") := by
  refine ⟨by decide, by decide, ?_⟩
  intro h
  unfold tokenize_url at h
  exact tokenizeChars_mem_ne s.toList [] t h

/-- C6 witness: `"a"` is a segment produced from `"/a"`, and it is
nonempty. -/
theorem C6_tokenize_url_witness : "a" ∈ tokenize_url "/a" ∧ "a" ≠ "" :=
  ⟨by decide, (C6_tokenize_url "/a" "a").2.2 (by decide)⟩

/-- C7: `content_too_large()` is true exactly when the content size reached
or exceeded `content_size_limit`; with a 10-byte limit, two `grow_content`
appends of 6 bytes each leave exactly 10 bytes and `content_too_large()`
true. -/
theorem C7_content_too_large (st : http_request) :
    (st.content_too_large = true ↔
      st.content.length ≥ st.content_size_limit) ∧
    ((({ req0 with content_size_limit := 10 } : http_request).grow_content
        "abcdef".toList).grow_content "ghijkl".toList).content
      = "abcdefghij".toList ∧
    ((({ req0 with content_size_limit := 10 } : http_request).grow_content
        "abcdef".toList).grow_content "ghijkl".toList).content.length = 10 ∧
    ((({ req0 with content_size_limit := 10 } : http_request).grow_content
        "abcdef".toList).grow_content "ghijkl".toList).content_too_large
      = true := by
  refine ⟨?_, by decide, by decide, by decide⟩
  simp [http_request.content_too_large]

/-- C9: `set_path` replaces the `path` field but appends the tokenized
segments onto the existing `post_path` vector without clearing it, so a
second call leaves the earlier segments in place followed by the new
ones. -/
theorem C9_set_path_appends (st : http_request) (p0 p : String) :
    (st.set_path p).post_path = st.post_path ++ tokenize_url p ∧
    (st.set_path p).path = p ∧
    ((st.set_path p0).set_path p).post_path
      = st.post_path ++ tokenize_url p0 ++ tokenize_url p ∧
    ((st.set_path p0).set_path p).path = p := by
  refine ⟨rfl, rfl, ?_, rfl⟩
  simp [http_request.set_path, List.append_assoc]

/-- C2: `check_digest_auth` returns `(false, reload_nonce = false)` on a
structural parse failure, `(false, reload_nonce = true)` when the nonce's
embedded issuance timestamp has expired relative to `nonce_timeout`,
`(false, reload_nonce = false)` when the recomputed RFC 2617 digest differs
from the presented response, and returns `true` only when the recomputed
digest fully matches the presented response (and then with
`reload_nonce = false`). -/
theorem C2_check_digest_auth (hash : String → String) (issuedAt : String → Int)
    (method uri realm password : String) (tmo now : Int) :
    http_request.check_digest_auth hash issuedAt method uri realm password
        tmo now none = (false, false) ∧
    (∀ p : digest_params, p.realm = realm → now - issuedAt p.nonce > tmo →
      http_request.check_digest_auth hash issuedAt method uri realm password
        tmo now (some p) = (false, true)) ∧
    (∀ p : digest_params, p.realm = realm → ¬(now - issuedAt p.nonce > tmo) →
      expected_digest hash method uri realm password p ≠ p.response →
      http_request.check_digest_auth hash issuedAt method uri realm password
        tmo now (some p) = (false, false)) ∧
    (∀ p : digest_params,
      (http_request.check_digest_auth hash issuedAt method uri realm password
        tmo now (some p)).1 = true →
      expected_digest hash method uri realm password p = p.response ∧
      (http_request.check_digest_auth hash issuedAt method uri realm password
        tmo now (some p)).2 = false) := by
  refine ⟨rfl, ?_, ?_, ?_⟩
  · intro p hr ht
    simp [http_request.check_digest_auth, hr, ht]
  · intro p hr ht hm
    simp [http_request.check_digest_auth, hr, ht, hm]
  · intro p h
    by_cases hr : p.realm = realm
    · by_cases ht : now - issuedAt p.nonce > tmo
      · simp [http_request.check_digest_auth, hr, ht] at h
      · by_cases hm :
          expected_digest hash method uri realm password p = p.response
        · exact ⟨hm, by simp [http_request.check_digest_auth, hr, ht, hm]⟩
        · simp [http_request.check_digest_auth, hr, ht, hm] at h
    · simp [http_request.check_digest_auth, hr] at h

/-- C2 witness: with the identity hash and a nonce issued at time 0: past
the timeout the good response fails with `reload_nonce = true`; within the
timeout the mutated response fails with `reload_nonce = false`; the good
response's recomputation matches and verification succeeds with
`reload_nonce = false`. -/
theorem C2_check_digest_auth_witness :
    http_request.check_digest_auth id (fun _ => 0) "GET" "/secret" "R" "P"
      5 100 (some pGood) = (false, true) ∧
    http_request.check_digest_auth id (fun _ => 0) "GET" "/secret" "R" "P"
      5 3 (some pBad) = (false, false) ∧
    expected_digest id "GET" "/secret" "R" "P" pGood = pGood.response ∧
    http_request.check_digest_auth id (fun _ => 0) "GET" "/secret" "R" "P"
      5 3 (some pGood) = (true, false) := by
  refine ⟨?_, ?_, ?_, ?_⟩
  · exact (C2_check_digest_auth id (fun _ => 0) "GET" "/secret" "R" "P"
      5 100).2.1 pGood rfl (by decide)
  · exact (C2_check_digest_auth id (fun _ => 0) "GET" "/secret" "R" "P"
      5 3).2.2.1 pBad rfl (by decide) (by decide)
  · exact ((C2_check_digest_auth id (fun _ => 0) "GET" "/secret" "R" "P"
      5 3).2.2.2 pGood (by decide)).1
  · decide

/-- C4: for each lazily loaded collection the loaded flag is true after any
`check_or_fill` call; a call on an already-loaded instance changes nothing
and performs no Transport enumeration; a call on an unloaded instance
enumerates exactly once; an immediate second call never re-enumerates; and
the lazy getters return identical results on a second call without
re-invoking the Transport. -/
theorem C4_lazy_single_load (tr : transport) (st : http_request) :
    ((http_request.check_or_fill_headers tr st).1.headers_loaded = true ∧
      (st.headers_loaded = true →
        http_request.check_or_fill_headers tr st = (st, 0)) ∧
      (st.headers_loaded = false →
        (http_request.check_or_fill_headers tr st).2 = 1) ∧
      http_request.check_or_fill_headers tr
          (http_request.check_or_fill_headers tr st).1
        = ((http_request.check_or_fill_headers tr st).1, 0)) ∧
    ((http_request.check_or_fill_footers tr st).1.footers_loaded = true ∧
      (st.footers_loaded = true →
        http_request.check_or_fill_footers tr st = (st, 0)) ∧
      (st.footers_loaded = false →
        (http_request.check_or_fill_footers tr st).2 = 1) ∧
      http_request.check_or_fill_footers tr
          (http_request.check_or_fill_footers tr st).1
        = ((http_request.check_or_fill_footers tr st).1, 0)) ∧
    ((http_request.check_or_fill_cookies tr st).1.cookies_loaded = true ∧
      (st.cookies_loaded = true →
        http_request.check_or_fill_cookies tr st = (st, 0)) ∧
      (st.cookies_loaded = false →
        (http_request.check_or_fill_cookies tr st).2 = 1) ∧
      http_request.check_or_fill_cookies tr
          (http_request.check_or_fill_cookies tr st).1
        = ((http_request.check_or_fill_cookies tr st).1, 0)) ∧
    ((http_request.check_or_fill_args tr st).1.args_loaded = true ∧
      (st.args_loaded = true →
        http_request.check_or_fill_args tr st = (st, 0)) ∧
      (st.args_loaded = false →
        (http_request.check_or_fill_args tr st).2 = 1) ∧
      http_request.check_or_fill_args tr
          (http_request.check_or_fill_args tr st).1
        = ((http_request.check_or_fill_args tr st).1, 0)) ∧
    ((http_request.get_headers tr (http_request.get_headers tr st).1.1).2
        = (http_request.get_headers tr st).2 ∧
      (http_request.get_headers tr (http_request.get_headers tr st).1.1).1.2
        = 0) ∧
    (∀ key,
      (http_request.get_header tr
          (http_request.get_header tr st key).1.1 key).2
        = (http_request.get_header tr st key).2) := by
  refine ⟨?_, ?_, ?_, ?_, ⟨?_, ?_⟩, ?_⟩
  · cases h : st.headers_loaded <;>
      simp [http_request.check_or_fill_headers, h]
  · cases h : st.footers_loaded <;>
      simp [http_request.check_or_fill_footers, h]
  · cases h : st.cookies_loaded <;>
      simp [http_request.check_or_fill_cookies, h]
  · cases h : st.args_loaded <;>
      simp [http_request.check_or_fill_args, h]
  · cases h : st.headers_loaded <;>
      simp [http_request.get_headers, http_request.check_or_fill_headers, h]
  · cases h : st.headers_loaded <;>
      simp [http_request.get_headers, http_request.check_or_fill_headers, h]
  · intro key
    cases h : st.headers_loaded <;>
      simp [http_request.get_header, http_request.check_or_fill_headers, h]

/-- C4 witness: on the unloaded `req0` a `check_or_fill_headers` against the
stub Transport enumerates exactly once, and on an already-loaded instance it
changes nothing and enumerates zero times. -/
theorem C4_lazy_single_load_witness :
    req0.headers_loaded = false ∧
    (http_request.check_or_fill_headers tr0 req0).2 = 1 ∧
    ({ req0 with headers_loaded := true } : http_request).headers_loaded
      = true ∧
    http_request.check_or_fill_headers tr0 { req0 with headers_loaded := true }
      = ({ req0 with headers_loaded := true }, 0) :=
  ⟨rfl, ((C4_lazy_single_load tr0 req0).1).2.2.1 rfl, rfl,
    ((C4_lazy_single_load tr0 { req0 with headers_loaded := true }).1).2.1 rfl⟩

/-- C8: inserting an argument by `set_arg` (either overload) or `set_args`
stores the value truncated to at most `content_size_limit` characters: the
stored string is the first `min(length, content_size_limit)` characters of
the given value (for the sized overload, of the `size`-byte buffer). -/
theorem C8_arg_truncation (st : http_request) (k v : String) (size : Nat)
    (m : List (String × String)) :
    mapGet argKeyEq (st.set_arg k v).args k
      = some (substr0 v st.content_size_limit) ∧
    mapGet argKeyEq (st.set_arg_sized k v size).args k
      = some (substr0 v (min size st.content_size_limit)) ∧
    (∀ w, findLastVal argKeyEq m k = some w →
      mapGet argKeyEq (st.set_args m).args k
        = some (substr0 w st.content_size_limit)) := by
  refine ⟨?_, ?_, ?_⟩
  · exact mapGet_mapSet_self argKeyEq k _ (argKeyEq_refl k) st.args
  · exact mapGet_mapSet_self argKeyEq k _ (argKeyEq_refl k) st.args
  · intro w hw
    have h2 := mapGet_foldl_mapSet argKeyEq argKeyEq_symm argKeyEq_trans
      (fun x => substr0 x st.content_size_limit) m st.args k
    rw [hw] at h2
    exact h2

/-- C8 witness: with a 2-character limit, inserting `("q", "abc")` through
`set_args` stores the first two characters. -/
theorem C8_arg_truncation_witness :
    findLastVal argKeyEq [("q", "abc")] "q" = some "abc" ∧
    mapGet argKeyEq
      (({ req0 with content_size_limit := 2 } : http_request).set_args
        [("q", "abc")]).args "q" = some (substr0 "abc" 2) :=
  ⟨by decide,
    (C8_arg_truncation { req0 with content_size_limit := 2 } "q" "x" 0
      [("q", "abc")]).2.2 "abc" (by decide)⟩

/-- C10: the bulk setters `set_headers`, `set_footers`, `set_cookies` and
`set_args` merge their argument into the existing map key by key: a key
matching no entry of the argument (under the map's comparator) keeps its
previous value, and a key matched by an entry ends up with the last matching
entry's value, truncated to `content_size_limit` for `set_args`. -/
theorem C10_bulk_setters_merge (st : http_request)
    (m : List (String × String)) (k : String) :
    ((∀ p ∈ m, headerKeyEq p.1 k = false) →
      mapGet headerKeyEq (st.set_headers m).headers k
        = mapGet headerKeyEq st.headers k) ∧
    (∀ v, findLastVal headerKeyEq m k = some v →
      mapGet headerKeyEq (st.set_headers m).headers k = some v) ∧
    ((∀ p ∈ m, headerKeyEq p.1 k = false) →
      mapGet headerKeyEq (st.set_footers m).footers k
        = mapGet headerKeyEq st.footers k) ∧
    (∀ v, findLastVal headerKeyEq m k = some v →
      mapGet headerKeyEq (st.set_footers m).footers k = some v) ∧
    ((∀ p ∈ m, headerKeyEq p.1 k = false) →
      mapGet headerKeyEq (st.set_cookies m).cookies k
        = mapGet headerKeyEq st.cookies k) ∧
    (∀ v, findLastVal headerKeyEq m k = some v →
      mapGet headerKeyEq (st.set_cookies m).cookies k = some v) ∧
    ((∀ p ∈ m, argKeyEq p.1 k = false) →
      mapGet argKeyEq (st.set_args m).args k = mapGet argKeyEq st.args k) ∧
    (∀ v, findLastVal argKeyEq m k = some v →
      mapGet argKeyEq (st.set_args m).args k
        = some (substr0 v st.content_size_limit)) := by
  refine ⟨?_, ?_, ?_, ?_, ?_, ?_, ?_, ?_⟩
  · intro hnone
    have h2 := mapGet_foldl_mapSet headerKeyEq headerKeyEq_symm
      headerKeyEq_trans (fun x => x) m st.headers k
    rw [findLastVal_eq_none headerKeyEq m k hnone] at h2
    exact h2
  · intro v hv
    have h2 := mapGet_foldl_mapSet headerKeyEq headerKeyEq_symm
      headerKeyEq_trans (fun x => x) m st.headers k
    rw [hv] at h2
    exact h2
  · intro hnone
    have h2 := mapGet_foldl_mapSet headerKeyEq headerKeyEq_symm
      headerKeyEq_trans (fun x => x) m st.footers k
    rw [findLastVal_eq_none headerKeyEq m k hnone] at h2
    exact h2
  · intro v hv
    have h2 := mapGet_foldl_mapSet headerKeyEq headerKeyEq_symm
      headerKeyEq_trans (fun x => x) m st.footers k
    rw [hv] at h2
    exact h2
  · intro hnone
    have h2 := mapGet_foldl_mapSet headerKeyEq headerKeyEq_symm
      headerKeyEq_trans (fun x => x) m st.cookies k
    rw [findLastVal_eq_none headerKeyEq m k hnone] at h2
    exact h2
  · intro v hv
    have h2 := mapGet_foldl_mapSet headerKeyEq headerKeyEq_symm
      headerKeyEq_trans (fun x => x) m st.cookies k
    rw [hv] at h2
    exact h2
  · intro hnone
    have h2 := mapGet_foldl_mapSet argKeyEq argKeyEq_symm argKeyEq_trans
      (fun x => substr0 x st.content_size_limit) m st.args k
    rw [findLastVal_eq_none argKeyEq m k hnone] at h2
    exact h2
  · intro v hv
    have h2 := mapGet_foldl_mapSet argKeyEq argKeyEq_symm argKeyEq_trans
      (fun x => substr0 x st.content_size_limit) m st.args k
    rw [hv] at h2
    exact h2

/-- C10 witness: merging `[("K", "new")]` into headers
`[("K", "old"), ("Z", "keep")]` leaves the unrelated key `Z` unchanged and
overwrites the entry matching `K` — also under a case-variant query key. -/
theorem C10_bulk_setters_merge_witness :
    (∀ p ∈ [("K", "new")], headerKeyEq p.1 "Z" = false) ∧
    mapGet headerKeyEq
      (({ req0 with headers := [("K", "old"), ("Z", "keep")] } :
        http_request).set_headers [("K", "new")]).headers "Z"
      = mapGet headerKeyEq
        ({ req0 with headers := [("K", "old"), ("Z", "keep")] } :
          http_request).headers "Z" ∧
    findLastVal headerKeyEq [("K", "new")] "k" = some "new" ∧
    mapGet headerKeyEq
      (({ req0 with headers := [("K", "old"), ("Z", "keep")] } :
        http_request).set_headers [("K", "new")]).headers "k"
      = some "new" :=
  ⟨by decide,
    (C10_bulk_setters_merge
      { req0 with headers := [("K", "old"), ("Z", "keep")] }
      [("K", "new")] "Z").1 (by decide),
    by decide,
    (C10_bulk_setters_merge
      { req0 with headers := [("K", "old"), ("Z", "keep")] }
      [("K", "new")] "k").2.1 "new" (by decide)⟩

end Httpserver
